import Mathlib

/-!
Verification of the financial dashboard's derived-state computations.

The definitions below are a shallow embedding of the TypeScript source:
dates are records carrying the calendar fields used by `getFY` together
with an epoch-day index and a millisecond-of-day offset (so that
`Date.getTime()` becomes `day * 86400000 + ms` and `setHours(23,59,59,999)`
becomes setting `ms := 86399999`); JS numbers that hold money amounts are
embedded as `Int`; JS strings are Lean `String`s.  The canonical
`categories` list and `subCategoriesMap` live in `@/models/data`, which is
referenced but not part of the sources here, so they are passed as
parameters (`cats : List String`, `subMap : String → List String`, the
latter folding in the `?? []` default of the record lookup).
-/

namespace Dashboard

/-- Embedding of a JS `Date`: `year` is `getFullYear()`, `month` is
`getMonth() + 1` (1 = January … 12 = December), `day` is the epoch day
index and `ms` the milliseconds elapsed within that day, so that
`getTime()` is `day * 86400000 + ms`. -/
structure DateT where
  year : Int
  month : Int
  day : Int
  ms : Int
deriving DecidableEq

/-- `Date.getTime()`. -/
def DateT.time (d : DateT) : Int := d.day * 86400000 + d.ms

/-- `end.setHours(23, 59, 59, 999)`: same calendar day, millisecond offset
pinned to 23*3600000 + 59*60000 + 59*1000 + 999 = 86399999. -/
def setEndOfDay (d : DateT) : DateT := { d with ms := 86399999 }

/-- `getFY`: `month >= 4 ? `${year}-${year+1}` : `${year-1}-${year}``. -/
def getFY (d : DateT) : String :=
  if 4 ≤ d.month then toString d.year ++ "-" ++ toString (d.year + 1)
  else toString (d.year - 1) ++ "-" ++ toString d.year

/-- A receipt row (`type Receipt`). -/
structure Receipt where
  id : Int
  date : DateT
  sanctionOrder : String
  category : String
  amount : Int
  attachment : String
deriving DecidableEq

/-- One per-category amount inside an allocation
(`type AllocationCategoryAmount`). -/
structure AllocationCategoryAmount where
  category : String
  allocatedAmount : Int
deriving DecidableEq

/-- An allocation entry (`type Allocation`). -/
structure Allocation where
  id : Int
  date : DateT
  allocationNumber : String
  categoryAmounts : List AllocationCategoryAmount
deriving DecidableEq

/-- An expenditure row (`type Expenditure`). -/
structure Expenditure where
  id : Int
  date : DateT
  billNo : String
  voucherNo : String
  category : String
  subCategory : String
  department : String
  amount : Int
  attachment : String
deriving DecidableEq

/-! ### Summary tab (`summaryCategoryData`) -/

/-- A sub-category summary row (`type SubCategorySummary`). -/
structure SubCategorySummary where
  subCategory : String
  parentCategory : String
  totalReceipts : Int
  totalExpenditure : Int
  balance : Int
deriving DecidableEq

/-- A per-category summary row produced by `summaryCategoryData`. -/
structure CategorySummary where
  category : String
  totalReceipts : Int
  totalExpenditure : Int
  balance : Int
  subCategories : List SubCategorySummary
deriving DecidableEq

/-- `summaryCategoryData`: for each category, the receipt and expenditure
totals (`filter` + `reduce((s, x) => s + x.amount, 0)`), the balance, and
one sub-category row per entry of `subCategoriesMap[category] ?? []`. -/
def summaryCategoryData (cats : List String) (subMap : String → List String)
    (receipts : List Receipt) (expenditures : List Expenditure) :
    List CategorySummary :=
  cats.map fun category =>
    let totalReceipts :=
      ((receipts.filter fun r => r.category == category).foldl
        (fun s r => s + r.amount) 0)
    let totalExpenditure :=
      ((expenditures.filter fun e => e.category == category).foldl
        (fun s e => s + e.amount) 0)
    let subCategories := (subMap category).map fun sub =>
      let subExpenditure :=
        ((expenditures.filter fun e =>
            e.category == category && e.subCategory == sub).foldl
          (fun s e => s + e.amount) 0)
      { subCategory := sub, parentCategory := category, totalReceipts := 0,
        totalExpenditure := subExpenditure, balance := -subExpenditure :
        SubCategorySummary }
    { category := category, totalReceipts := totalReceipts,
      totalExpenditure := totalExpenditure,
      balance := totalReceipts - totalExpenditure,
      subCategories := subCategories }

/-! ### Receipts tab filters (`filteredReceiptTabData`) -/

/-- `String.toLowerCase()`, character by character. -/
def lowerStr (s : String) : String := s.map Char.toLower

/-- `hay.toLowerCase().includes(needle.toLowerCase())`. -/
def containsCI (hay needle : String) : Bool :=
  decide ((lowerStr needle).data <:+: (lowerStr hay).data)

/-- The receipts-tab filter state.  In the source every field is a string
and the empty string means "filter inactive"; the numeric and date fields
are embedded post-parse: `none` models the empty string and `some v` a
non-empty string whose `Number(...)` / `new Date(...)` value is `v`. -/
structure ReceiptTabFilters where
  sanctionOrder : String
  category : String
  amountMin : Option Int
  amountMax : Option Int
  dateFrom : Option DateT
  dateTo : Option DateT
deriving DecidableEq

/-- JS truthiness gate on an optional filter value: `filters.x && test(x)`
is true exactly when the filter is set and the test rejects the row. -/
def activeFails {β : Type} (o : Option β) (p : β → Bool) : Bool :=
  match o with
  | some v => p v
  | none => false

/-- The filter predicate of `filteredReceiptTabData`, mirroring the
early-return cascade of the source. -/
def receiptPasses (f : ReceiptTabFilters) (r : Receipt) : Bool :=
  if f.sanctionOrder != "" && !(containsCI r.sanctionOrder f.sanctionOrder) then false
  else if f.category != "" && r.category != f.category then false
  else if activeFails f.amountMin (fun m => decide (r.amount < m)) then false
  else if activeFails f.amountMax (fun m => decide (m < r.amount)) then false
  else if activeFails f.dateFrom (fun d0 => decide (r.date.time < d0.time)) then false
  else if activeFails f.dateTo
      (fun d1 => decide ((setEndOfDay d1).time < r.date.time)) then false
  else true

/-- `filteredReceiptTabData`: `receipts.filter(...)`. -/
def filteredReceiptTabData (rs : List Receipt) (f : ReceiptTabFilters) :
    List Receipt :=
  rs.filter (receiptPasses f)

/-- "Passes every active filter", as claim C5 words it. -/
def ReceiptPassesP (f : ReceiptTabFilters) (r : Receipt) : Prop :=
  (f.sanctionOrder ≠ "" →
    (lowerStr f.sanctionOrder).data <:+: (lowerStr r.sanctionOrder).data) ∧
  (f.category ≠ "" → r.category = f.category) ∧
  (∀ m, f.amountMin = some m → m ≤ r.amount) ∧
  (∀ m, f.amountMax = some m → r.amount ≤ m) ∧
  (∀ d0, f.dateFrom = some d0 → d0.time ≤ r.date.time) ∧
  (∀ d1, f.dateTo = some d1 → r.date.time ≤ (setEndOfDay d1).time)

/-- What claim C5 asserts of the receipts-tab filtering. -/
def ReceiptFilterSpec (rs : List Receipt) (f : ReceiptTabFilters) : Prop :=
  (∀ r, r ∈ filteredReceiptTabData rs f ↔ r ∈ rs ∧ ReceiptPassesP f r) ∧
  (filteredReceiptTabData rs f).Sublist rs

/-! ### Pagination (`DataTable`) -/

/-- `totalPages = Math.max(1, Math.ceil(processed.length / rowsPerPage))`. -/
def totalPagesD (n k : Nat) : Nat := max 1 ((n + k - 1) / k)

/-- `processed.slice((page - 1) * k, (page - 1) * k + k)`. -/
def pageSlice {α : Type} (l : List α) (page k : Nat) : List α :=
  (l.drop ((page - 1) * k)).take k

/-- `safePage = Math.min(currentPage, totalPages)`. -/
def safePageD (p tp : Nat) : Nat := min p tp

/-- What claim C6 asserts of the `DataTable` pagination. -/
def PaginationSpec {α : Type} (l : List α) (k p : Nat) : Prop :=
  ((List.range (totalPagesD l.length k)).map fun i => pageSlice l (i + 1) k).flatten = l ∧
  safePageD p (totalPagesD l.length k) ≤ totalPagesD l.length k ∧
  (p ≤ totalPagesD l.length k → safePageD p (totalPagesD l.length k) = p) ∧
  pageSlice l (safePageD p (totalPagesD l.length k)) k =
    (l.drop ((safePageD p (totalPagesD l.length k) - 1) * k)).take k

/-! ### Allocations tab (`allocationTables`) -/

/-- One rendered allocation table: the latest entry of an allocation
number, its rows and their total. -/
structure AllocationTable where
  allocationNumber : String
  date : DateT
  entry : Allocation
  rows : List AllocationCategoryAmount
  total : Int
deriving DecidableEq

/-- `map[a.allocationNumber].push(a)` on a `Record` built left to right:
append to the first group with this key, or add a new key at the end. -/
def insertGrouped (k : String) (a : Allocation) :
    List (String × List Allocation) → List (String × List Allocation)
  | [] => [(k, [a])]
  | (k', g) :: rest =>
    if k' = k then (k', g ++ [a]) :: rest
    else (k', g) :: insertGrouped k a rest

/-- The `filteredAllocations.forEach(...)` grouping pass: entries grouped
by allocation number, keys in order of first occurrence. -/
def groupByAllocationNumber (l : List Allocation) :
    List (String × List Allocation) :=
  l.foldl (fun m a => insertGrouped a.allocationNumber a m) []

/-- Record lookup on the association list built by `insertGrouped`. -/
def findGroup : List (String × List Allocation) → String → List Allocation
  | [], _ => []
  | (k', g) :: rest, k => if k' = k then g else findGroup rest k

/-- `[...entries].sort((a, b) => b.date.getTime() - a.date.getTime())[0]`:
the first entry carrying the maximal date, i.e. the head of the stable
descending sort. -/
def latestEntry : List Allocation → Option Allocation
  | [] => none
  | h :: t =>
    some (t.foldl (fun best a => if best.date.time < a.date.time then a
                                 else best) h)

/-- The table built from one group: everything is read off the latest
entry, the total reducing its `categoryAmounts`. -/
def mkAllocationTable (k : String) (g : List Allocation) :
    Option AllocationTable :=
  (latestEntry g).map fun latest =>
    { allocationNumber := k, date := latest.date, entry := latest,
      rows := latest.categoryAmounts,
      total := latest.categoryAmounts.foldl
        (fun s ca => s + ca.allocatedAmount) 0 }

/-- Stable insertion of a table into a list sorted by date descending. -/
def insertTableDesc (t : AllocationTable) :
    List AllocationTable → List AllocationTable
  | [] => [t]
  | u :: rest =>
    if u.date.time ≤ t.date.time then t :: u :: rest
    else u :: insertTableDesc t rest

/-- `.sort((a, b) => b.date.getTime() - a.date.getTime())` on the table
list (stable, descending). -/
def sortTablesDesc : List AllocationTable → List AllocationTable
  | [] => []
  | t :: rest => insertTableDesc t (sortTablesDesc rest)

/-- The grouped tables before the final date sort. -/
def rawTables (l : List Allocation) : List AllocationTable :=
  (groupByAllocationNumber l).filterMap fun p => mkAllocationTable p.1 p.2

/-- `allocationTables`: group by allocation number, keep each group's
latest entry, sort the groups by that date, newest first. -/
def allocationTables (l : List Allocation) : List AllocationTable :=
  sortTablesDesc (rawTables l)

/-- `latestAllocationTable = allocationTables[0] ?? null`. -/
def latestAllocationTable (l : List Allocation) : Option AllocationTable :=
  (allocationTables l).head?

/-- `historyAllocationTables = allocationTables.slice(1)`. -/
def historyAllocationTables (l : List Allocation) : List AllocationTable :=
  (allocationTables l).tail

/-- What claim C1 asserts of the allocations view. -/
def AllocationTablesSpec (l : List Allocation) : Prop :=
  (∀ t ∈ allocationTables l,
    t.entry ∈ l ∧
    t.entry.allocationNumber = t.allocationNumber ∧
    t.date = t.entry.date ∧
    t.rows = t.entry.categoryAmounts ∧
    t.total = (t.entry.categoryAmounts.map (·.allocatedAmount)).sum ∧
    ∀ a ∈ l, a.allocationNumber = t.allocationNumber →
      a.date.time ≤ t.entry.date.time) ∧
  ((allocationTables l).map (·.allocationNumber)).Nodup ∧
  (∀ a ∈ l, ∃ t ∈ allocationTables l,
    t.allocationNumber = a.allocationNumber) ∧
  (allocationTables l).Pairwise (fun x y => y.date.time ≤ x.date.time) ∧
  latestAllocationTable l = (allocationTables l).head? ∧
  historyAllocationTables l = (allocationTables l).tail

/-! ### Reports tab (`financialYears`, `fyCategorySummary`) -/

/-- `new Set(...)` insertion: keep the first occurrence of each value. -/
def insertUniq (l : List String) (s : String) : List String :=
  if s ∈ l then l else l ++ [s]

/-- `Array.from(new Set(l))`: deduplicate keeping first occurrences. -/
def uniqueFirst (l : List String) : List String := l.foldl insertUniq []

/-- Insertion step of the default ascending string sort (`.sort()`). -/
def insertStrAsc (s : String) : List String → List String
  | [] => [s]
  | t :: rest => if s ≤ t then s :: t :: rest else t :: insertStrAsc s rest

/-- `.sort()`: lexicographic ascending, stable. -/
def sortStrAsc : List String → List String
  | [] => []
  | s :: rest => insertStrAsc s (sortStrAsc rest)

/-- `financialYears`: the distinct FY strings of all receipt, expenditure
and allocation dates, sorted and reversed (descending). -/
def financialYears (rs : List Receipt) (es : List Expenditure)
    (alls : List Allocation) : List String :=
  (sortStrAsc (uniqueFirst
    (((rs.map (·.date)) ++ (es.map (·.date)) ++ (alls.map (·.date))).map
      getFY))).reverse

/-- One row of the reports-tab financial-year summary. -/
structure FYRow where
  fy : String
  category : String
  allocated : Int
  receipts : Int
  expenditure : Int
deriving DecidableEq

/-- `fyCategorySummary`: nested `forEach` over financial years and
categories, pushing one row per pair. -/
def fyCategorySummary (cats : List String) (rs : List Receipt)
    (es : List Expenditure) (alls : List Allocation) : List FYRow :=
  (financialYears rs es alls).flatMap fun fy =>
    cats.map fun cat =>
      { fy := fy, category := cat,
        allocated :=
          ((alls.filter fun a => getFY a.date == fy).foldl
            (fun sum a =>
              sum + (((a.categoryAmounts.find? fun ca =>
                ca.category == cat).map (·.allocatedAmount)).getD 0)) 0),
        receipts :=
          ((rs.filter fun r => getFY r.date == fy && r.category == cat).foldl
            (fun s r => s + r.amount) 0),
        expenditure :=
          ((es.filter fun e => getFY e.date == fy && e.category == cat).foldl
            (fun s e => s + e.amount) 0) }

/-- What claim C4 asserts of the reports-tab summary. -/
def FYSummarySpec (cats : List String) (rs : List Receipt)
    (es : List Expenditure) (alls : List Allocation) : Prop :=
  ((fyCategorySummary cats rs es alls).map fun r => (r.fy, r.category)) =
    financialYears rs es alls ×ˢ cats ∧
  ((fyCategorySummary cats rs es alls).map fun r => (r.fy, r.category)).Nodup ∧
  (financialYears rs es alls).Nodup ∧
  (financialYears rs es alls).Pairwise (fun a b => b ≤ a) ∧
  (∀ fy, fy ∈ financialYears rs es alls ↔
    fy ∈ (rs.map fun r => getFY r.date) ++ (es.map fun e => getFY e.date) ++
      (alls.map fun a => getFY a.date)) ∧
  ∀ row ∈ fyCategorySummary cats rs es alls,
    row.allocated =
      ((alls.filter fun a => getFY a.date == row.fy).map fun a =>
        ((a.categoryAmounts.find? fun ca =>
          ca.category == row.category).map (·.allocatedAmount)).getD 0).sum ∧
    row.receipts =
      ((rs.filter fun r =>
        getFY r.date == row.fy && r.category == row.category).map
        (·.amount)).sum ∧
    row.expenditure =
      ((es.filter fun e =>
        getFY e.date == row.fy && e.category == row.category).map
        (·.amount)).sum

/-! ### Mock in-memory backend (`src/lib/mock`) -/

/-- A `{ data: [...] }` read response. -/
structure DataWrapped (α : Type) where
  data : α
deriving DecidableEq

/-- A `{ success, id }` create response. -/
structure CreateResponse where
  success : Bool
  id : Int
deriving DecidableEq

/-- A `{ success }` update/delete response. -/
structure OkResponse where
  success : Bool
deriving DecidableEq

/-- The module-level mutable state of the mock backend: the three entity
lists and their id counters. -/
structure MockState where
  receipts : List Receipt
  allocations : List Allocation
  expenditures : List Expenditure
  receiptIdCounter : Int
  allocationIdCounter : Int
  expenditureIdCounter : Int
deriving DecidableEq

/-- `receipts/read.php`: `() => ({ data: mockReceipts })`, served with
status 200 by the fetch stub. -/
def readReceiptsRoute (s : MockState) :
    Nat × DataWrapped (List Receipt) × MockState :=
  (200, ⟨s.receipts⟩, s)

/-- `receipts/create.php`: append the body with the freshly incremented
id counter (the body's own id, if any, is overwritten). -/
def createReceiptRoute (s : MockState) (body : Receipt) :
    Nat × CreateResponse × MockState :=
  (200, ⟨true, s.receiptIdCounter⟩,
   { s with
     receipts := s.receipts ++ [{ body with id := s.receiptIdCounter }],
     receiptIdCounter := s.receiptIdCounter + 1 })

/-- `receipts/update.php`: `map(r => r.id === body.id ? {...r, ...body} : r)`.
The client posts full records, so the spread-merge equals the body (whose
id equals `r.id` under the guard). -/
def updateReceiptRoute (s : MockState) (body : Receipt) :
    Nat × OkResponse × MockState :=
  (200, ⟨true⟩,
   { s with receipts := s.receipts.map fun r =>
       if r.id == body.id then body else r })

/-- `receipts/delete.php`: `filter(r => r.id !== id)`. -/
def deleteReceiptRoute (s : MockState) (i : Int) :
    Nat × OkResponse × MockState :=
  (200, ⟨true⟩, { s with receipts := s.receipts.filter fun r => r.id != i })

/-- `allocations/read.php`. -/
def readAllocationsRoute (s : MockState) :
    Nat × DataWrapped (List Allocation) × MockState :=
  (200, ⟨s.allocations⟩, s)

/-- `allocations/create.php`. -/
def createAllocationRoute (s : MockState) (body : Allocation) :
    Nat × CreateResponse × MockState :=
  (200, ⟨true, s.allocationIdCounter⟩,
   { s with
     allocations := s.allocations ++
       [{ body with id := s.allocationIdCounter }],
     allocationIdCounter := s.allocationIdCounter + 1 })

/-- `allocations/update.php`. -/
def updateAllocationRoute (s : MockState) (body : Allocation) :
    Nat × OkResponse × MockState :=
  (200, ⟨true⟩,
   { s with allocations := s.allocations.map fun a =>
       if a.id == body.id then body else a })

/-- `allocations/delete.php`. -/
def deleteAllocationRoute (s : MockState) (i : Int) :
    Nat × OkResponse × MockState :=
  (200, ⟨true⟩,
   { s with allocations := s.allocations.filter fun a => a.id != i })

/-- `expenditures/read.php`. -/
def readExpendituresRoute (s : MockState) :
    Nat × DataWrapped (List Expenditure) × MockState :=
  (200, ⟨s.expenditures⟩, s)

/-- `expenditures/create.php`. -/
def createExpenditureRoute (s : MockState) (body : Expenditure) :
    Nat × CreateResponse × MockState :=
  (200, ⟨true, s.expenditureIdCounter⟩,
   { s with
     expenditures := s.expenditures ++
       [{ body with id := s.expenditureIdCounter }],
     expenditureIdCounter := s.expenditureIdCounter + 1 })

/-- `expenditures/update.php`. -/
def updateExpenditureRoute (s : MockState) (body : Expenditure) :
    Nat × OkResponse × MockState :=
  (200, ⟨true⟩,
   { s with expenditures := s.expenditures.map fun e =>
       if e.id == body.id then body else e })

/-- `expenditures/delete.php`. -/
def deleteExpenditureRoute (s : MockState) (i : Int) :
    Nat × OkResponse × MockState :=
  (200, ⟨true⟩,
   { s with expenditures := s.expenditures.filter fun e => e.id != i })

/-- `generateMock*`: entry `i` (0-based) gets id `i + 1`; the other,
randomly generated fields are supplied by the oracle functions.  The
counters start at `length + 1`. -/
def initialMockState (nR nA nE : Nat) (fR : Nat → Receipt)
    (fA : Nat → Allocation) (fE : Nat → Expenditure) : MockState :=
  { receipts := (List.range nR).map fun i => { fR i with id := (i : Int) + 1 },
    allocations :=
      (List.range nA).map fun i => { fA i with id := (i : Int) + 1 },
    expenditures :=
      (List.range nE).map fun i => { fE i with id := (i : Int) + 1 },
    receiptIdCounter := (nR : Int) + 1,
    allocationIdCounter := (nA : Int) + 1,
    expenditureIdCounter := (nE : Int) + 1 }

/-- One mutating request to the mock backend. -/
inductive MockOp where
  | createReceipt (body : Receipt)
  | updateReceipt (body : Receipt)
  | deleteReceipt (i : Int)
  | createAllocation (body : Allocation)
  | updateAllocation (body : Allocation)
  | deleteAllocation (i : Int)
  | createExpenditure (body : Expenditure)
  | updateExpenditure (body : Expenditure)
  | deleteExpenditure (i : Int)

/-- State effect of one mutating route. -/
def applyMockOp (s : MockState) : MockOp → MockState
  | .createReceipt b => (createReceiptRoute s b).2.2
  | .updateReceipt b => (updateReceiptRoute s b).2.2
  | .deleteReceipt i => (deleteReceiptRoute s i).2.2
  | .createAllocation b => (createAllocationRoute s b).2.2
  | .updateAllocation b => (updateAllocationRoute s b).2.2
  | .deleteAllocation i => (deleteAllocationRoute s i).2.2
  | .createExpenditure b => (createExpenditureRoute s b).2.2
  | .updateExpenditure b => (updateExpenditureRoute s b).2.2
  | .deleteExpenditure i => (deleteExpenditureRoute s i).2.2

/-- Well-formedness of one entity store: pairwise-distinct ids, all below
the id counter. -/
def storeWF (ids : List Int) (counter : Int) : Prop :=
  ids.Nodup ∧ ∀ i ∈ ids, i < counter

/-- Claim C9's invariant over the whole mock state. -/
def MockWF (s : MockState) : Prop :=
  storeWF (s.receipts.map (·.id)) s.receiptIdCounter ∧
  storeWF (s.allocations.map (·.id)) s.allocationIdCounter ∧
  storeWF (s.expenditures.map (·.id)) s.expenditureIdCounter

/-- What claim C7 asserts of the receipt routes. -/
def ReceiptsCrudSpec (s : MockState) (rb : Receipt) (rid : Int) : Prop :=
  readReceiptsRoute s = (200, ⟨s.receipts⟩, s) ∧
  (createReceiptRoute s rb).1 = 200 ∧
  (createReceiptRoute s rb).2.1 = ⟨true, s.receiptIdCounter⟩ ∧
  (createReceiptRoute s rb).2.2.receipts =
    s.receipts ++ [{ rb with id := s.receiptIdCounter }] ∧
  (createReceiptRoute s rb).2.2.receiptIdCounter = s.receiptIdCounter + 1 ∧
  (updateReceiptRoute s rb).1 = 200 ∧
  (∀ i : Nat, ((updateReceiptRoute s rb).2.2.receipts)[i]? =
    (s.receipts[i]?).map fun r => if r.id = rb.id then rb else r) ∧
  (deleteReceiptRoute s rid).1 = 200 ∧
  (∀ r, r ∈ (deleteReceiptRoute s rid).2.2.receipts ↔
    r ∈ s.receipts ∧ r.id ≠ rid) ∧
  ((deleteReceiptRoute s rid).2.2.receipts).Sublist s.receipts

/-- What claim C7 asserts of the allocation routes. -/
def AllocationsCrudSpec (s : MockState) (ab : Allocation) (aid : Int) :
    Prop :=
  readAllocationsRoute s = (200, ⟨s.allocations⟩, s) ∧
  (createAllocationRoute s ab).1 = 200 ∧
  (createAllocationRoute s ab).2.1 = ⟨true, s.allocationIdCounter⟩ ∧
  (createAllocationRoute s ab).2.2.allocations =
    s.allocations ++ [{ ab with id := s.allocationIdCounter }] ∧
  (createAllocationRoute s ab).2.2.allocationIdCounter =
    s.allocationIdCounter + 1 ∧
  (updateAllocationRoute s ab).1 = 200 ∧
  (∀ i : Nat, ((updateAllocationRoute s ab).2.2.allocations)[i]? =
    (s.allocations[i]?).map fun a => if a.id = ab.id then ab else a) ∧
  (deleteAllocationRoute s aid).1 = 200 ∧
  (∀ a, a ∈ (deleteAllocationRoute s aid).2.2.allocations ↔
    a ∈ s.allocations ∧ a.id ≠ aid) ∧
  ((deleteAllocationRoute s aid).2.2.allocations).Sublist s.allocations

/-- What claim C7 asserts of the expenditure routes. -/
def ExpendituresCrudSpec (s : MockState) (eb : Expenditure) (eid : Int) :
    Prop :=
  readExpendituresRoute s = (200, ⟨s.expenditures⟩, s) ∧
  (createExpenditureRoute s eb).1 = 200 ∧
  (createExpenditureRoute s eb).2.1 = ⟨true, s.expenditureIdCounter⟩ ∧
  (createExpenditureRoute s eb).2.2.expenditures =
    s.expenditures ++ [{ eb with id := s.expenditureIdCounter }] ∧
  (createExpenditureRoute s eb).2.2.expenditureIdCounter =
    s.expenditureIdCounter + 1 ∧
  (updateExpenditureRoute s eb).1 = 200 ∧
  (∀ i : Nat, ((updateExpenditureRoute s eb).2.2.expenditures)[i]? =
    (s.expenditures[i]?).map fun e => if e.id = eb.id then eb else e) ∧
  (deleteExpenditureRoute s eid).1 = 200 ∧
  (∀ e, e ∈ (deleteExpenditureRoute s eid).2.2.expenditures ↔
    e ∈ s.expenditures ∧ e.id ≠ eid) ∧
  ((deleteExpenditureRoute s eid).2.2.expenditures).Sublist s.expenditures

/-- What claim C7 asserts of the whole mock backend. -/
def MockCrudSpec (s : MockState) (rb : Receipt) (ab : Allocation)
    (eb : Expenditure) (rid aid eid : Int) : Prop :=
  ReceiptsCrudSpec s rb rid ∧ AllocationsCrudSpec s ab aid ∧
  ExpendituresCrudSpec s eb eid

/-! ### `apiFetch` and the fetch-and-store callers -/

/-- The ERP login page the 401 handler redirects to. -/
def ERP_LOGIN_URL : String := "https://nitj.ac.in"

/-- Observable part of a `fetch` `Response`: its HTTP status and the
`ok` flag (`200 <= status < 300` in a real browser). -/
structure ApiResponse where
  status : Nat
  ok : Bool
deriving DecidableEq

/-- `apiFetch`: on status 401, set `window.location.href` to the ERP
login URL (first component) and throw; otherwise return the response
unchanged.  The first component is the redirect target, if any; the
second is the thrown error or the returned response. -/
def apiFetch (res : ApiResponse) : Option String × Except String ApiResponse :=
  if res.status == 401 then
    (some ERP_LOGIN_URL, Except.error "Unauthorized — redirecting to ERP login")
  else (none, Except.ok res)

/-- The JSON body shapes `parseList` distinguishes: a bare array, an
object with an optional `data` array, or anything else (null etc.). -/
inductive JsonList (α : Type) where
  | arr (items : List α)
  | obj (dataField : Option (List α))
  | other

/-- `parseList = data => Array.isArray(data) ? data : data?.data ?? []`. -/
def parseList {α : Type} : JsonList α → List α
  | .arr items => items
  | .obj (some l) => l
  | .obj none => []
  | .other => []

/-- `fetchReceipts`: bail out (keeping the current array) unless
`res.ok`; otherwise store the parsed list (whose date/amount coercions
are identities in this typed embedding). -/
def fetchReceiptsApply (res : ApiResponse) (body : JsonList Receipt)
    (cur : List Receipt) : List Receipt :=
  if !res.ok then cur else parseList body

/-- `fetchExpenditures`, same shape as `fetchReceipts`. -/
def fetchExpendituresApply (res : ApiResponse)
    (body : JsonList Expenditure) (cur : List Expenditure) :
    List Expenditure :=
  if !res.ok then cur else parseList body

/-- `fetchAllocations`, same shape as `fetchReceipts`. -/
def fetchAllocationsApply (res : ApiResponse) (body : JsonList Allocation)
    (cur : List Allocation) : List Allocation :=
  if !res.ok then cur else parseList body

/-- What claim C8 asserts of `apiFetch` and its callers. -/
def ApiFetchSpec (res : ApiResponse) : Prop :=
  (res.status = 401 →
    apiFetch res = (some ERP_LOGIN_URL,
      Except.error "Unauthorized — redirecting to ERP login")) ∧
  (res.status ≠ 401 → apiFetch res = (none, Except.ok res)) ∧
  (res.ok = false →
    (∀ (body : JsonList Receipt) (cur : List Receipt),
      fetchReceiptsApply res body cur = cur) ∧
    (∀ (body : JsonList Expenditure) (cur : List Expenditure),
      fetchExpendituresApply res body cur = cur) ∧
    (∀ (body : JsonList Allocation) (cur : List Allocation),
      fetchAllocationsApply res body cur = cur))

/-! ### Allocation flat round trip (`allocationToFlat` / `flatToAllocation`) -/

/-- `AllocationFlat`: the fixed fields plus the dynamic
`amount_${category}` properties, kept as an ordered key/value list
(later duplicates shadow earlier ones, as in `Object.fromEntries`). -/
structure AllocationFlat where
  _index : Int
  date : DateT
  allocationNumber : String
  amounts : List (String × Int)
deriving DecidableEq

/-- `allocationToFlat`. -/
def allocationToFlat (idx : Int) (a : Allocation) : AllocationFlat :=
  { _index := idx, date := a.date, allocationNumber := a.allocationNumber,
    amounts := a.categoryAmounts.map fun ca =>
      ("amount_" ++ ca.category, ca.allocatedAmount) }

/-- Property access `flat[`amount_${c}`]`: the last binding of the key
wins, as with `Object.fromEntries`. -/
def flatLookup (flat : AllocationFlat) (k : String) : Option Int :=
  ((flat.amounts.reverse).find? fun p => p.1 == k).map (·.2)

/-- The id-less allocation record `flatToAllocation` rebuilds
(`Omit<Allocation, "id">`). -/
structure AllocationData where
  date : DateT
  allocationNumber : String
  categoryAmounts : List AllocationCategoryAmount
deriving DecidableEq

/-- `flatToAllocation`: one amount per canonical category, in order,
`Number(flat[`amount_${c}`]) || 0` defaulting to 0 when absent. -/
def flatToAllocation (cats : List String) (flat : AllocationFlat) :
    AllocationData :=
  { date := flat.date, allocationNumber := flat.allocationNumber,
    categoryAmounts := cats.map fun c =>
      { category := c,
        allocatedAmount := (flatLookup flat ("amount_" ++ c)).getD 0 } }

/-- What claim C2 asserts of `summaryCategoryData`. -/
def SummarySpec (cats : List String) (subMap : String → List String)
    (rs : List Receipt) (es : List Expenditure) : Prop :=
  let rows := summaryCategoryData cats subMap rs es
  rows.map (·.category) = cats ∧
  ∀ row ∈ rows,
    row.totalReceipts =
      ((rs.filter fun r => r.category == row.category).map (·.amount)).sum ∧
    row.totalExpenditure =
      ((es.filter fun e => e.category == row.category).map (·.amount)).sum ∧
    row.balance = row.totalReceipts - row.totalExpenditure ∧
    row.subCategories.map (·.subCategory) = subMap row.category ∧
    ∀ srow ∈ row.subCategories,
      srow.parentCategory = row.category ∧
      srow.totalReceipts = 0 ∧
      srow.totalExpenditure =
        ((es.filter fun e =>
            e.category == row.category && e.subCategory == srow.subCategory).map
          (·.amount)).sum ∧
      srow.balance = -srow.totalExpenditure


end Dashboard

namespace Dashboard

theorem foldl_add_amount {α : Type} (f : α → Int) (l : List α) (a : Int) :
    l.foldl (fun s x => s + f x) a = a + (l.map f).sum := by
  induction l generalizing a with
  | nil => simp
  | cons x xs ih => simp [List.foldl_cons, ih, add_assoc]

/-- C3: `getFY` maps a date with calendar year `Y` to the string
`Y-(Y+1)` when its month is April through December (month ≥ 4) and to
`(Y-1)-Y` when its month is January through March. -/
theorem getFY_spec (d : DateT) :
    (4 ≤ d.month → getFY d = toString d.year ++ "-" ++ toString (d.year + 1)) ∧
    (d.month < 4 → getFY d = toString (d.year - 1) ++ "-" ++ toString d.year) := by
  constructor
  · intro h
    simp [getFY, h]
  · intro h
    simp [getFY, not_le.mpr h]

/-- C3 witness: May 2023 falls in FY 2023-2024 and February 2024 in
FY 2023-2024 as well. -/
theorem getFY_witness :
    (4 ≤ (5 : Int) ∧ getFY ⟨2023, 5, 0, 0⟩ = "2023-2024") ∧
    ((2 : Int) < 4 ∧ getFY ⟨2024, 2, 0, 0⟩ = "2023-2024") := by
  refine ⟨⟨by decide, ?_⟩, ⟨by decide, ?_⟩⟩
  · have h := (getFY_spec ⟨2023, 5, 0, 0⟩).1 (by decide)
    simpa using h
  · have h := (getFY_spec ⟨2024, 2, 0, 0⟩).2 (by decide)
    simpa using h

/-- C2: each summary row's receipt/expenditure totals sum exactly the
entries of its category, balance is their difference, and each
sub-category row sums the expenditures of its (category, sub-category)
pair, with zero receipts and negated balance. -/
theorem summaryCategoryData_spec (cats : List String)
    (subMap : String → List String) (rs : List Receipt)
    (es : List Expenditure) : SummarySpec cats subMap rs es := by
  unfold SummarySpec summaryCategoryData
  refine ⟨by simp; exact List.map_id'' (fun _ => rfl) cats, ?_⟩
  intro row hrow
  simp only [List.mem_map] at hrow
  obtain ⟨c, _, rfl⟩ := hrow
  refine ⟨?_, ?_, ?_, by simp; exact List.map_id'' (fun _ => rfl) _, ?_⟩
  · simpa using foldl_add_amount (fun r : Receipt => r.amount) _ 0
  · simpa using foldl_add_amount (fun e : Expenditure => e.amount) _ 0
  · rfl
  · intro srow hsrow
    simp only [List.mem_map] at hsrow
    obtain ⟨sub, _, rfl⟩ := hsrow
    refine ⟨rfl, rfl, ?_, rfl⟩
    simpa using foldl_add_amount (fun e : Expenditure => e.amount) _ 0

theorem pass_cascade (b1 b2 b3 b4 b5 b6 : Bool) :
    (if b1 then false else if b2 then false else if b3 then false
     else if b4 then false else if b5 then false else if b6 then false
     else true) = true ↔
      b1 = false ∧ b2 = false ∧ b3 = false ∧ b4 = false ∧ b5 = false ∧
        b6 = false := by
  cases b1 <;> cases b2 <;> cases b3 <;> cases b4 <;> cases b5 <;> cases b6 <;>
    simp

theorem bne_and_not_eq_false (s : String) (c : Bool) :
    (s != "" && !c) = false ↔ (s ≠ "" → c = true) := by
  cases hs : (s != "") <;> cases c <;> simp_all [bne_iff_ne]

theorem bne_and_bne_eq_false (s a b : String) :
    (s != "" && a != b) = false ↔ (s ≠ "" → a = b) := by
  cases hs : (s != "") <;> cases hab : (a != b) <;> simp_all [bne_iff_ne]

theorem activeFails_eq_false {β : Type} (o : Option β) (p : β → Bool) :
    activeFails o p = false ↔ ∀ v, o = some v → p v = false := by
  cases o <;> simp [activeFails]

theorem receiptPasses_iff (f : ReceiptTabFilters) (r : Receipt) :
    receiptPasses f r = true ↔ ReceiptPassesP f r := by
  unfold receiptPasses
  rw [pass_cascade, bne_and_not_eq_false, bne_and_bne_eq_false,
    activeFails_eq_false, activeFails_eq_false, activeFails_eq_false,
    activeFails_eq_false]
  unfold ReceiptPassesP
  simp only [containsCI, decide_eq_true_eq, decide_eq_false_iff_not, not_lt]

/-- C5: a receipt survives the receipts-tab filters exactly when it
passes every active filter (case-insensitive sanction-order containment,
category equality, amount bounds, date window ending at 23:59:59.999 of
`dateTo`), and the survivors keep their relative order. -/
theorem filteredReceiptTabData_spec (rs : List Receipt)
    (f : ReceiptTabFilters) : ReceiptFilterSpec rs f := by
  constructor
  · intro r
    rw [filteredReceiptTabData, List.mem_filter, receiptPasses_iff]
  · exact List.filter_sublist rs

/-- C5 witness: the filter characterization at a concrete pair of
receipts and an active sanction-order / amount / date filter. -/
theorem filteredReceiptTabData_witness :
    ReceiptFilterSpec
      [⟨1, ⟨2023, 5, 100, 0⟩, "SO-17", "Equipment", 500, ""⟩,
       ⟨2, ⟨2023, 6, 120, 0⟩, "SO-44", "Consumables", 900, ""⟩]
      ⟨"so-1", "", some 100, none, none, some ⟨2023, 6, 110, 0⟩⟩ :=
  filteredReceiptTabData_spec _ _

theorem flatten_pageSlices {α : Type} (k : Nat) :
    ∀ (m : Nat) (l : List α), l.length ≤ m * k →
      ((List.range m).map fun i => (l.drop (i * k)).take k).flatten = l := by
  intro m
  induction m with
  | zero =>
    intro l h
    simp only [Nat.zero_mul, Nat.le_zero, List.length_eq_zero] at h
    simp [h]
  | succ m ih =>
    intro l h
    rw [List.range_succ_eq_map]
    simp only [List.map_cons, List.map_map, List.flatten_cons, Nat.zero_mul,
      List.drop_zero]
    have hmap : ∀ i : Nat,
        ((fun i => (l.drop (i * k)).take k) ∘ Nat.succ) i =
          ((l.drop k).drop (i * k)).take k := by
      intro i
      simp only [Function.comp_apply, List.drop_drop]
      rw [Nat.succ_mul, Nat.add_comm]
    rw [List.map_congr_left fun i _ => hmap i]
    rw [Nat.succ_mul] at h
    rw [ih (l.drop k) (by simp only [List.length_drop]; omega)]
    exact List.take_append_drop k l

theorem length_le_totalPages_mul (n k : Nat) (hk : 0 < k) :
    n ≤ totalPagesD n k * k := by
  unfold totalPagesD
  have h1 := Nat.div_add_mod (n + k - 1) k
  have h2 := Nat.mod_lt (n + k - 1) hk
  generalize (n + k - 1) % k = r at h1 h2
  rcases Nat.eq_zero_or_pos ((n + k - 1) / k) with hq | hq
  · rw [hq] at h1 ⊢
    simp only [Nat.mul_zero, Nat.zero_add] at h1
    have hn : n = 0 := by omega
    simp [hn]
  · rw [Nat.max_eq_right hq, Nat.mul_comm]
    generalize k * ((n + k - 1) / k) = t at h1 ⊢
    omega

/-- C6: with `k` rows per page, the table shows `max(1, ceil(n / k))`
pages, clamps the requested page to that count, displays the slice
`[(safePage-1)*k, safePage*k)`, and the pages laid end to end reproduce
the processed list, so each row lands on exactly one page. -/
theorem dataTable_pagination_spec {α : Type} (l : List α) (k p : Nat)
    (hk : 0 < k) : PaginationSpec l k p := by
  refine ⟨?_, Nat.min_le_right _ _, fun hp => Nat.min_eq_left hp, rfl⟩
  have hb := length_le_totalPages_mul l.length k hk
  have hj := flatten_pageSlices k (totalPagesD l.length k) l hb
  have hmap : ((List.range (totalPagesD l.length k)).map
        fun i => pageSlice l (i + 1) k) =
      ((List.range (totalPagesD l.length k)).map
        fun i => (l.drop (i * k)).take k) :=
    List.map_congr_left fun i _ => by simp [pageSlice]
  rw [hmap]
  exact hj

/-- C6 witness: five rows at two per page give three pages. -/
theorem dataTable_pagination_witness :
    0 < 2 ∧ PaginationSpec [10, 20, 30, 40, 50] 2 7 :=
  ⟨by decide, dataTable_pagination_spec [10, 20, 30, 40, 50] 2 7 (by decide)⟩


/-- C2 witness: the summary evaluated on one concrete receipt and two
concrete expenditures. -/
theorem summaryCategoryData_witness :
    SummarySpec ["Equipment"] (fun _ => ["Lab"])
      [⟨1, ⟨2023, 5, 100, 0⟩, "S/1", "Equipment", 500, ""⟩]
      [⟨1, ⟨2023, 6, 120, 0⟩, "B/1", "V/1", "Equipment", "Lab", "CSE", 200, ""⟩,
       ⟨2, ⟨2023, 7, 140, 0⟩, "B/2", "V/2", "Equipment", "Lab", "ECE", 100, ""⟩] :=
  summaryCategoryData_spec _ _ _ _

/-! ### Lemmas for the allocations view -/

theorem findGroup_insertGrouped (k : String) (a : Allocation) :
    ∀ (m : List (String × List Allocation)) (q : String),
      findGroup (insertGrouped k a m) q =
        if q = k then findGroup m q ++ [a] else findGroup m q := by
  intro m
  induction m with
  | nil =>
    intro q
    by_cases h : q = k
    · subst h; simp [insertGrouped, findGroup]
    · have h2 : ¬ k = q := fun hh => h hh.symm
      simp [insertGrouped, findGroup, h, h2]
  | cons p rest ih =>
    obtain ⟨k0, g⟩ := p
    intro q
    by_cases h0 : k0 = k
    · subst h0
      have hins : insertGrouped k0 a ((k0, g) :: rest) =
          (k0, g ++ [a]) :: rest := by
        simp [insertGrouped]
      rw [hins]
      by_cases hq : q = k0
      · subst hq
        simp [findGroup]
      · have h2 : ¬ k0 = q := fun hh => hq hh.symm
        simp [findGroup, hq, h2]
    · have hins : insertGrouped k a ((k0, g) :: rest) =
          (k0, g) :: insertGrouped k a rest := by
        simp [insertGrouped, h0]
      rw [hins]
      by_cases hq : k0 = q
      · subst hq
        have hqk : ¬ k0 = k := h0
        rw [if_neg hqk]
        simp [findGroup]
      · rw [show findGroup ((k0, g) :: insertGrouped k a rest) q =
            findGroup (insertGrouped k a rest) q from by simp [findGroup, hq]]
        rw [ih q]
        by_cases hqk : q = k
        · rw [if_pos hqk, if_pos hqk]
          simp [findGroup, hq]
        · rw [if_neg hqk, if_neg hqk]
          simp [findGroup, hq]

theorem findGroup_foldl (k : String) :
    ∀ (l : List Allocation) (m : List (String × List Allocation)),
      findGroup (l.foldl (fun m a => insertGrouped a.allocationNumber a m) m) k =
        findGroup m k ++ l.filter (fun a => a.allocationNumber == k) := by
  intro l
  induction l with
  | nil => intro m; simp
  | cons a l ih =>
    intro m
    rw [List.foldl_cons, ih, findGroup_insertGrouped]
    by_cases h : k = a.allocationNumber
    · subst h
      simp [List.filter_cons]
    · have hb : (a.allocationNumber == k) = false := by
        simp [beq_eq_false_iff_ne]
        exact fun hh => h hh.symm
      simp [h, List.filter_cons, hb]

theorem findGroup_groupBy (l : List Allocation) (k : String) :
    findGroup (groupByAllocationNumber l) k =
      l.filter (fun a => a.allocationNumber == k) := by
  have h := findGroup_foldl k l []
  simpa [groupByAllocationNumber, findGroup] using h

theorem keys_insertGrouped (k : String) (a : Allocation) :
    ∀ (m : List (String × List Allocation)),
      (insertGrouped k a m).map Prod.fst =
        if k ∈ m.map Prod.fst then m.map Prod.fst
        else m.map Prod.fst ++ [k] := by
  intro m
  induction m with
  | nil => simp [insertGrouped]
  | cons p rest ih =>
    obtain ⟨k0, g⟩ := p
    by_cases h0 : k0 = k
    · subst h0; simp [insertGrouped]
    · have hne : ¬ k = k0 := fun hh => h0 hh.symm
      by_cases hmem : k ∈ rest.map Prod.fst
      · simp [insertGrouped, h0, ih, hmem, hne]
      · simp [insertGrouped, h0, ih, hmem, hne]

theorem mem_keys_insertGrouped (k q : String) (a : Allocation)
    (m : List (String × List Allocation)) :
    q ∈ (insertGrouped k a m).map Prod.fst ↔
      q ∈ m.map Prod.fst ∨ q = k := by
  rw [keys_insertGrouped]
  by_cases hmem : k ∈ m.map Prod.fst
  · simp only [hmem, if_true]
    constructor
    · exact Or.inl
    · rintro (h | rfl)
      · exact h
      · exact hmem
  · simp [hmem]

theorem nodup_keys_insertGrouped (k : String) (a : Allocation)
    (m : List (String × List Allocation))
    (h : (m.map Prod.fst).Nodup) :
    ((insertGrouped k a m).map Prod.fst).Nodup := by
  rw [keys_insertGrouped]
  by_cases hmem : k ∈ m.map Prod.fst
  · simpa [hmem]
  · simp [hmem, List.nodup_append, h]

theorem nodup_keys_foldl :
    ∀ (l : List Allocation) (m : List (String × List Allocation)),
      (m.map Prod.fst).Nodup →
      ((l.foldl (fun m a => insertGrouped a.allocationNumber a m) m).map
        Prod.fst).Nodup := by
  intro l
  induction l with
  | nil => intro m h; simpa
  | cons a l ih =>
    intro m h
    rw [List.foldl_cons]
    exact ih _ (nodup_keys_insertGrouped _ _ _ h)

theorem nodup_keys_groupBy (l : List Allocation) :
    ((groupByAllocationNumber l).map Prod.fst).Nodup :=
  nodup_keys_foldl l [] (by simp)

theorem mem_keys_foldl :
    ∀ (l : List Allocation) (m : List (String × List Allocation)) (k : String),
      k ∈ (l.foldl (fun m a => insertGrouped a.allocationNumber a m) m).map
          Prod.fst ↔
        k ∈ m.map Prod.fst ∨ k ∈ l.map (·.allocationNumber) := by
  intro l
  induction l with
  | nil => intro m k; simp
  | cons a l ih =>
    intro m k
    rw [List.foldl_cons, ih, mem_keys_insertGrouped]
    simp only [List.map_cons, List.mem_cons]
    tauto

theorem mem_keys_groupBy (l : List Allocation) (k : String) :
    k ∈ (groupByAllocationNumber l).map Prod.fst ↔
      k ∈ l.map (·.allocationNumber) := by
  have h := mem_keys_foldl l [] k
  simpa [groupByAllocationNumber] using h

theorem findGroup_of_mem_nodup :
    ∀ (m : List (String × List Allocation)),
      (m.map Prod.fst).Nodup →
      ∀ (k : String) (g : List Allocation), (k, g) ∈ m → findGroup m k = g := by
  intro m
  induction m with
  | nil => intro _ k g h; simp at h
  | cons p rest ih =>
    obtain ⟨k0, g0⟩ := p
    intro hnd k g hmem
    rcases List.mem_cons.mp hmem with he | hr
    · obtain ⟨rfl, rfl⟩ := Prod.mk.injEq .. ▸ And.intro (congrArg Prod.fst he)
        (congrArg Prod.snd he)
      simp [findGroup]
    · have hk : k ∈ rest.map Prod.fst :=
        List.mem_map.mpr ⟨(k, g), hr, rfl⟩
      have hne : k0 ≠ k := by
        intro hh
        subst hh
        exact (List.nodup_cons.mp (by simpa using hnd)).1 hk
      simp only [findGroup, hne, if_false]
      exact ih (List.nodup_cons.mp (by simpa using hnd)).2 k g hr

theorem foldl_pick_spec :
    ∀ (g : List Allocation) (b : Allocation),
      (g.foldl (fun best a => if best.date.time < a.date.time then a
                              else best) b = b ∨
       g.foldl (fun best a => if best.date.time < a.date.time then a
                              else best) b ∈ g) ∧
      b.date.time ≤ (g.foldl (fun best a =>
        if best.date.time < a.date.time then a else best) b).date.time ∧
      ∀ a ∈ g, a.date.time ≤ (g.foldl (fun best a =>
        if best.date.time < a.date.time then a else best) b).date.time := by
  intro g
  induction g with
  | nil => intro b; exact ⟨Or.inl rfl, le_refl _, by simp⟩
  | cons a g ih =>
    intro b
    rw [List.foldl_cons]
    obtain ⟨hmem, hle, hall⟩ := ih (if b.date.time < a.date.time then a else b)
    have hba : b.date.time ≤
        (if b.date.time < a.date.time then a else b).date.time := by
      split <;> omega
    have haa : a.date.time ≤
        (if b.date.time < a.date.time then a else b).date.time := by
      split <;> omega
    refine ⟨?_, le_trans hba hle, ?_⟩
    · rcases hmem with he | hg
      · rw [he]
        split
        · exact Or.inr (List.mem_cons_self a g)
        · exact Or.inl rfl
      · exact Or.inr (List.mem_cons_of_mem a hg)
    · intro x hx
      rcases List.mem_cons.mp hx with rfl | hxg
      · exact le_trans haa hle
      · exact hall x hxg

theorem latestEntry_spec (g : List Allocation) (e : Allocation)
    (h : latestEntry g = some e) :
    e ∈ g ∧ ∀ a ∈ g, a.date.time ≤ e.date.time := by
  cases g with
  | nil => simp [latestEntry] at h
  | cons h0 t =>
    simp only [latestEntry, Option.some.injEq] at h
    subst h
    obtain ⟨hmem, hle, hall⟩ := foldl_pick_spec t h0
    constructor
    · rcases hmem with he | ht
      · rw [he]; exact List.mem_cons_self _ _
      · exact List.mem_cons_of_mem _ ht
    · intro a ha
      rcases List.mem_cons.mp ha with rfl | hat
      · exact hle
      · exact hall a hat

theorem latestEntry_isSome (g : List Allocation) (hne : g ≠ []) :
    ∃ e, latestEntry g = some e := by
  cases g with
  | nil => exact absurd rfl hne
  | cons h0 t => exact ⟨_, rfl⟩

theorem insertTableDesc_perm (t : AllocationTable) :
    ∀ l : List AllocationTable,
      List.Perm (insertTableDesc t l) (t :: l) := by
  intro l
  induction l with
  | nil => simp [insertTableDesc]
  | cons u rest ih =>
    unfold insertTableDesc
    split
    · exact List.Perm.refl _
    · exact List.Perm.trans (List.Perm.cons u ih) (List.Perm.swap t u rest)

theorem sortTablesDesc_perm :
    ∀ l : List AllocationTable, List.Perm (sortTablesDesc l) l := by
  intro l
  induction l with
  | nil => simp [sortTablesDesc]
  | cons t rest ih =>
    unfold sortTablesDesc
    exact List.Perm.trans (insertTableDesc_perm t _) (List.Perm.cons t ih)

theorem insertTableDesc_pairwise (t : AllocationTable) :
    ∀ l : List AllocationTable,
      l.Pairwise (fun x y => y.date.time ≤ x.date.time) →
      (insertTableDesc t l).Pairwise (fun x y => y.date.time ≤ x.date.time) := by
  intro l
  induction l with
  | nil => intro _; simp [insertTableDesc]
  | cons u rest ih =>
    intro h
    rw [List.pairwise_cons] at h
    unfold insertTableDesc
    split
    · rename_i hc
      rw [List.pairwise_cons]
      refine ⟨?_, List.pairwise_cons.mpr h⟩
      intro v hv
      rcases List.mem_cons.mp hv with rfl | hvr
      · exact hc
      · exact le_trans (h.1 v hvr) hc
    · rename_i hc
      rw [List.pairwise_cons]
      constructor
      · intro v hv
        rcases List.mem_cons.mp ((insertTableDesc_perm t rest).mem_iff.mp hv)
          with rfl | hvr
        · exact le_of_lt (lt_of_not_le hc)
        · exact h.1 v hvr
      · exact ih h.2

theorem sortTablesDesc_pairwise :
    ∀ l : List AllocationTable,
      (sortTablesDesc l).Pairwise (fun x y => y.date.time ≤ x.date.time) := by
  intro l
  induction l with
  | nil => simp [sortTablesDesc]
  | cons t rest ih =>
    unfold sortTablesDesc
    exact insertTableDesc_pairwise t _ ih

theorem mkAllocationTable_allocNo (k : String) (g : List Allocation)
    (t : AllocationTable) (h : mkAllocationTable k g = some t) :
    t.allocationNumber = k := by
  unfold mkAllocationTable at h
  cases hle : latestEntry g with
  | none => rw [hle] at h; simp at h
  | some e =>
    rw [hle] at h
    simp only [Option.map_some', Option.some.injEq] at h
    rw [← h]

theorem group_eq_filter (l : List Allocation) (k : String)
    (g : List Allocation) (hp : (k, g) ∈ groupByAllocationNumber l) :
    g = l.filter (fun a => a.allocationNumber == k) := by
  have h := findGroup_of_mem_nodup (groupByAllocationNumber l)
    (nodup_keys_groupBy l) k g hp
  rw [← h, findGroup_groupBy]

theorem rawTables_mem (l : List Allocation) (t : AllocationTable)
    (ht : t ∈ rawTables l) :
    t.entry ∈ l ∧ t.entry.allocationNumber = t.allocationNumber ∧
    t.date = t.entry.date ∧ t.rows = t.entry.categoryAmounts ∧
    t.total = (t.entry.categoryAmounts.map (·.allocatedAmount)).sum ∧
    ∀ a ∈ l, a.allocationNumber = t.allocationNumber →
      a.date.time ≤ t.entry.date.time := by
  obtain ⟨p, hp, hf⟩ := List.mem_filterMap.mp ht
  obtain ⟨k0, g⟩ := p
  have hg : g = l.filter (fun a => a.allocationNumber == k0) :=
    group_eq_filter l k0 g hp
  unfold mkAllocationTable at hf
  cases hle : latestEntry g with
  | none => rw [hle] at hf; simp at hf
  | some e =>
    rw [hle] at hf
    simp only [Option.map_some', Option.some.injEq] at hf
    obtain ⟨hmem, hmax⟩ := latestEntry_spec g e hle
    rw [hg, List.mem_filter] at hmem
    subst hf
    refine ⟨hmem.1, by simpa using hmem.2, rfl, rfl, ?_, ?_⟩
    · simpa using foldl_add_amount
        (fun ca : AllocationCategoryAmount => ca.allocatedAmount) _ 0
    · intro a ha hk
      have haf : a ∈ g := by
        rw [hg, List.mem_filter]
        exact ⟨ha, by simpa using hk⟩
      exact hmax a haf

theorem filterMap_keys_sublist :
    ∀ m : List (String × List Allocation),
      List.Sublist
        ((m.filterMap fun p => mkAllocationTable p.1 p.2).map
          (·.allocationNumber))
        (m.map Prod.fst) := by
  intro m
  induction m with
  | nil => simp
  | cons p rest ih =>
    cases hf : mkAllocationTable p.1 p.2 with
    | none =>
      rw [List.filterMap_cons, hf]
      exact List.Sublist.cons _ ih
    | some t =>
      rw [List.filterMap_cons, hf]
      simp only [List.map_cons, mkAllocationTable_allocNo _ _ _ hf]
      exact List.Sublist.cons₂ _ ih

theorem rawTables_cover (l : List Allocation) (a : Allocation)
    (ha : a ∈ l) :
    ∃ t ∈ rawTables l, t.allocationNumber = a.allocationNumber := by
  have hk : a.allocationNumber ∈ (groupByAllocationNumber l).map Prod.fst :=
    (mem_keys_groupBy l _).mpr (List.mem_map.mpr ⟨a, ha, rfl⟩)
  obtain ⟨p, hp, hfst⟩ := List.mem_map.mp hk
  obtain ⟨k0, g⟩ := p
  have hg : g = l.filter (fun a => a.allocationNumber == k0) :=
    group_eq_filter l k0 g hp
  have hne : g ≠ [] := by
    rw [hg]
    have h2 : a.allocationNumber = k0 := hfst.symm
    exact List.ne_nil_of_mem (List.mem_filter.mpr ⟨ha, by simp [h2]⟩)
  obtain ⟨e, he⟩ := latestEntry_isSome g hne
  have hsome : mkAllocationTable k0 g =
      some { allocationNumber := k0, date := e.date, entry := e,
             rows := e.categoryAmounts,
             total := e.categoryAmounts.foldl
               (fun s ca => s + ca.allocatedAmount) 0 } := by
    simp [mkAllocationTable, he]
  refine ⟨_, List.mem_filterMap.mpr ⟨(k0, g), hp, hsome⟩, ?_⟩
  exact hfst

/-- C1: the allocations view has one table per allocation number; each
table's displayed entry belongs to the input list, carries that
allocation number, and has maximal date within its group; the rows and
total come from that entry alone; the tables are ordered newest first,
the head shown as "Latest" and the tail as history. -/
theorem allocationTables_spec (l : List Allocation) :
    AllocationTablesSpec l := by
  have hperm := sortTablesDesc_perm (rawTables l)
  refine ⟨?_, ?_, ?_, ?_, rfl, rfl⟩
  · intro t ht
    exact rawTables_mem l t (hperm.mem_iff.mp ht)
  · show (List.map (·.allocationNumber) (sortTablesDesc (rawTables l))).Nodup
    rw [List.Perm.nodup_iff (hperm.map (·.allocationNumber))]
    exact List.Nodup.sublist
      (filterMap_keys_sublist (groupByAllocationNumber l))
      (nodup_keys_groupBy l)
  · intro a ha
    obtain ⟨t, htm, hte⟩ := rawTables_cover l a ha
    exact ⟨t, hperm.mem_iff.mpr htm, hte⟩
  · exact sortTablesDesc_pairwise (rawTables l)

/-- C1 witness: three entries across two allocation numbers, one number
carrying two dated versions. -/
theorem allocationTables_witness :
    AllocationTablesSpec
      [⟨1, ⟨2023, 5, 10, 0⟩, "A-1", [⟨"Equipment", 100⟩]⟩,
       ⟨2, ⟨2023, 9, 40, 0⟩, "A-1", [⟨"Equipment", 250⟩]⟩,
       ⟨3, ⟨2023, 6, 20, 0⟩, "A-2", [⟨"Salary", 50⟩]⟩] :=
  allocationTables_spec _

/-! ### Lemmas for the reports-tab summary -/

theorem insertUniq_nodup (l : List String) (s : String) (h : l.Nodup) :
    (insertUniq l s).Nodup := by
  unfold insertUniq
  split
  · exact h
  · rename_i hmem
    simp [List.nodup_append, h, hmem]

theorem mem_insertUniq (l : List String) (s x : String) :
    x ∈ insertUniq l s ↔ x ∈ l ∨ x = s := by
  unfold insertUniq
  split
  · rename_i hmem
    constructor
    · exact Or.inl
    · rintro (h | rfl)
      · exact h
      · exact hmem
  · simp

theorem foldl_insertUniq_nodup :
    ∀ (l acc : List String), acc.Nodup → (l.foldl insertUniq acc).Nodup := by
  intro l
  induction l with
  | nil => intro acc h; simpa
  | cons s l ih =>
    intro acc h
    rw [List.foldl_cons]
    exact ih _ (insertUniq_nodup acc s h)

theorem mem_foldl_insertUniq :
    ∀ (l acc : List String) (x : String),
      x ∈ l.foldl insertUniq acc ↔ x ∈ acc ∨ x ∈ l := by
  intro l
  induction l with
  | nil => intro acc x; simp
  | cons s l ih =>
    intro acc x
    rw [List.foldl_cons, ih, mem_insertUniq]
    simp only [List.mem_cons]
    tauto

theorem uniqueFirst_nodup (l : List String) : (uniqueFirst l).Nodup :=
  foldl_insertUniq_nodup l [] (by simp)

theorem mem_uniqueFirst (l : List String) (x : String) :
    x ∈ uniqueFirst l ↔ x ∈ l := by
  have h := mem_foldl_insertUniq l [] x
  simpa [uniqueFirst] using h

theorem insertStrAsc_perm (s : String) :
    ∀ l : List String, List.Perm (insertStrAsc s l) (s :: l) := by
  intro l
  induction l with
  | nil => simp [insertStrAsc]
  | cons t rest ih =>
    unfold insertStrAsc
    split
    · exact List.Perm.refl _
    · exact List.Perm.trans (List.Perm.cons t ih) (List.Perm.swap s t rest)

theorem sortStrAsc_perm :
    ∀ l : List String, List.Perm (sortStrAsc l) l := by
  intro l
  induction l with
  | nil => simp [sortStrAsc]
  | cons s rest ih =>
    unfold sortStrAsc
    exact List.Perm.trans (insertStrAsc_perm s _) (List.Perm.cons s ih)

theorem insertStrAsc_pairwise (s : String) :
    ∀ l : List String, l.Pairwise (· ≤ ·) →
      (insertStrAsc s l).Pairwise (· ≤ ·) := by
  intro l
  induction l with
  | nil => intro _; simp [insertStrAsc]
  | cons t rest ih =>
    intro h
    rw [List.pairwise_cons] at h
    unfold insertStrAsc
    split
    · rename_i hc
      rw [List.pairwise_cons]
      refine ⟨?_, List.pairwise_cons.mpr h⟩
      intro v hv
      rcases List.mem_cons.mp hv with rfl | hvr
      · exact hc
      · exact le_trans hc (h.1 v hvr)
    · rename_i hc
      rw [List.pairwise_cons]
      constructor
      · intro v hv
        rcases List.mem_cons.mp ((insertStrAsc_perm s rest).mem_iff.mp hv)
          with rfl | hvr
        · exact le_of_lt (lt_of_not_le hc)
        · exact h.1 v hvr
      · exact ih h.2

theorem sortStrAsc_pairwise :
    ∀ l : List String, (sortStrAsc l).Pairwise (· ≤ ·) := by
  intro l
  induction l with
  | nil => simp [sortStrAsc]
  | cons s rest ih =>
    unfold sortStrAsc
    exact insertStrAsc_pairwise s _ ih

/-- C4: the reports-tab summary has exactly one row per (financial year,
category) pair, the years distinct and descending, covering exactly the
years of all dated entries; each row sums the allocations' recorded
amounts for the category (0 when absent) and the receipts and
expenditures of that year and category. -/
theorem fyCategorySummary_spec (cats : List String) (rs : List Receipt)
    (es : List Expenditure) (alls : List Allocation)
    (hcats : cats.Nodup) : FYSummarySpec cats rs es alls := by
  have hfys : (financialYears rs es alls).Nodup := by
    unfold financialYears
    rw [List.nodup_reverse, List.Perm.nodup_iff (sortStrAsc_perm _)]
    exact uniqueFirst_nodup _
  have hprod : (financialYears rs es alls ×ˢ cats) =
      (financialYears rs es alls).flatMap fun fy => cats.map (Prod.mk fy) :=
    rfl
  have hpair : ((fyCategorySummary cats rs es alls).map
      fun r => (r.fy, r.category)) = financialYears rs es alls ×ˢ cats := by
    rw [hprod]
    unfold fyCategorySummary
    rw [List.map_flatMap]
    exact congrArg (List.flatMap _)
      (funext fun fy => by
        rw [List.map_map]
        exact List.map_congr_left fun cat _ => rfl)
  refine ⟨hpair, ?_, hfys, ?_, ?_, ?_⟩
  · rw [hpair]
    exact List.Nodup.product hfys hcats
  · unfold financialYears
    rw [List.pairwise_reverse]
    exact (sortStrAsc_pairwise _).imp fun h => h
  · intro fy
    unfold financialYears
    rw [List.mem_reverse, (sortStrAsc_perm _).mem_iff, mem_uniqueFirst]
    simp [List.map_map, Function.comp]
  · intro row hrow
    unfold fyCategorySummary at hrow
    obtain ⟨fy, _, hm⟩ := List.mem_flatMap.mp hrow
    obtain ⟨cat, _, rfl⟩ := List.mem_map.mp hm
    refine ⟨?_, ?_, ?_⟩
    · simpa using foldl_add_amount
        (fun a : Allocation =>
          ((a.categoryAmounts.find? fun ca =>
            ca.category == cat).map (·.allocatedAmount)).getD 0) _ 0
    · simpa using foldl_add_amount (fun r : Receipt => r.amount) _ 0
    · simpa using foldl_add_amount (fun e : Expenditure => e.amount) _ 0

/-- C4 witness: one receipt, expenditure and allocation across two
financial years. -/
theorem fyCategorySummary_witness :
    (["Equipment", "Salary"] : List String).Nodup ∧
    FYSummarySpec ["Equipment", "Salary"]
      [⟨1, ⟨2023, 5, 100, 0⟩, "S/1", "Equipment", 500, ""⟩]
      [⟨1, ⟨2022, 2, 50, 0⟩, "B/1", "V/1", "Salary", "Staff", "CSE", 200, ""⟩]
      [⟨1, ⟨2023, 9, 140, 0⟩, "A-1",
        [⟨"Equipment", 100⟩, ⟨"Salary", 70⟩]⟩] :=
  ⟨by decide, fyCategorySummary_spec _ _ _ _ (by decide)⟩

/-! ### Mock backend theorems -/

/-- C7: each entity's mock routes behave as a REST CRUD store — read
returns the full list in a `data` field, create appends the body under a
fresh id and reports it, update rewrites exactly the matching-id entries
to the posted body, delete removes exactly the matching-id entries, and
every route answers 200. -/
theorem mockRoutes_crud_spec (s : MockState) (rb : Receipt)
    (ab : Allocation) (eb : Expenditure) (rid aid eid : Int) :
    MockCrudSpec s rb ab eb rid aid eid := by
  refine ⟨⟨rfl, rfl, rfl, rfl, rfl, rfl, ?_, rfl, ?_, List.filter_sublist _⟩,
          ⟨rfl, rfl, rfl, rfl, rfl, rfl, ?_, rfl, ?_, List.filter_sublist _⟩,
          ⟨rfl, rfl, rfl, rfl, rfl, rfl, ?_, rfl, ?_, List.filter_sublist _⟩⟩
  · intro i
    show (s.receipts.map fun r => if r.id == rb.id then rb else r)[i]? = _
    rw [List.getElem?_map]
    cases h : s.receipts[i]? with
    | none => rfl
    | some r =>
      simp only [Option.map_some', Option.some.injEq]
      by_cases hid : r.id = rb.id <;> simp [hid]
  · intro r
    show r ∈ s.receipts.filter (fun r => r.id != rid) ↔ _
    simp [List.mem_filter, bne_iff_ne]
  · intro i
    show (s.allocations.map fun a => if a.id == ab.id then ab else a)[i]? = _
    rw [List.getElem?_map]
    cases h : s.allocations[i]? with
    | none => rfl
    | some a =>
      simp only [Option.map_some', Option.some.injEq]
      by_cases hid : a.id = ab.id <;> simp [hid]
  · intro a
    show a ∈ s.allocations.filter (fun a => a.id != aid) ↔ _
    simp [List.mem_filter, bne_iff_ne]
  · intro i
    show (s.expenditures.map fun e => if e.id == eb.id then eb else e)[i]? = _
    rw [List.getElem?_map]
    cases h : s.expenditures[i]? with
    | none => rfl
    | some e =>
      simp only [Option.map_some', Option.some.injEq]
      by_cases hid : e.id = eb.id <;> simp [hid]
  · intro e
    show e ∈ s.expenditures.filter (fun e => e.id != eid) ↔ _
    simp [List.mem_filter, bne_iff_ne]

/-- C7 witness: the CRUD characterization at a one-entry store. -/
theorem mockRoutes_crud_witness :
    MockCrudSpec
      ⟨[⟨1, ⟨2023, 5, 100, 0⟩, "S/1", "Equipment", 500, ""⟩],
       [⟨1, ⟨2023, 6, 120, 0⟩, "A-1", [⟨"Equipment", 100⟩]⟩],
       [⟨1, ⟨2023, 7, 140, 0⟩, "B/1", "V/1", "Equipment", "Lab", "CSE",
         200, ""⟩], 2, 2, 2⟩
      ⟨0, ⟨2024, 1, 200, 0⟩, "S/2", "Salary", 900, ""⟩
      ⟨0, ⟨2024, 2, 220, 0⟩, "A-2", [⟨"Salary", 70⟩]⟩
      ⟨0, ⟨2024, 3, 240, 0⟩, "B/2", "V/2", "Salary", "Staff", "ECE",
        300, ""⟩
      1 1 1 :=
  mockRoutes_crud_spec _ _ _ _ _ _ _

theorem storeWF_append (ids : List Int) (c : Int) (h : storeWF ids c) :
    storeWF (ids ++ [c]) (c + 1) := by
  have hcnot : c ∉ ids := fun hc => lt_irrefl c (h.2 c hc)
  constructor
  · simp [List.nodup_append, h.1, hcnot]
  · intro i hi
    rcases List.mem_append.mp hi with hi | hi
    · exact lt_trans (h.2 i hi) (lt_add_one c)
    · simp only [List.mem_singleton] at hi
      omega

theorem storeWF_update {α : Type} (idOf : α → Int) (upd : α → α)
    (l : List α) (c : Int) (h : storeWF (l.map idOf) c)
    (hupd : ∀ x ∈ l, idOf (upd x) = idOf x) :
    storeWF ((l.map upd).map idOf) c := by
  rw [List.map_map]
  have heq : List.map (idOf ∘ upd) l = List.map idOf l :=
    List.map_congr_left fun x hx => hupd x hx
  rw [heq]
  exact h

theorem storeWF_filter {α : Type} (idOf : α → Int) (p : α → Bool)
    (l : List α) (c : Int) (h : storeWF (l.map idOf) c) :
    storeWF ((l.filter p).map idOf) c := by
  have hsub : List.Sublist ((l.filter p).map idOf) (l.map idOf) :=
    (List.filter_sublist l).map idOf
  exact ⟨List.Nodup.sublist hsub h.1, fun i hi => h.2 i (hsub.subset hi)⟩

theorem storeWF_seq (n : Nat) :
    storeWF ((List.range n).map fun (i : Nat) => (i : Int) + 1) ((n : Int) + 1) := by
  constructor
  · refine List.Nodup.map ?_ (List.nodup_range n)
    intro a b hab
    simp only [] at hab
    omega
  · intro i hi
    obtain ⟨j, hj, rfl⟩ := List.mem_map.mp hi
    have := List.mem_range.mp hj
    omega

theorem initialMockState_WF (nR nA nE : Nat) (fR : Nat → Receipt)
    (fA : Nat → Allocation) (fE : Nat → Expenditure) :
    MockWF (initialMockState nR nA nE fR fA fE) := by
  refine ⟨?_, ?_, ?_⟩
  · have hmap : (initialMockState nR nA nE fR fA fE).receipts.map (·.id) =
        (List.range nR).map fun (i : Nat) => (i : Int) + 1 := by
      simp [initialMockState, List.map_map, Function.comp]
    rw [hmap]
    exact storeWF_seq nR
  · have hmap : (initialMockState nR nA nE fR fA fE).allocations.map (·.id) =
        (List.range nA).map fun (i : Nat) => (i : Int) + 1 := by
      simp [initialMockState, List.map_map, Function.comp]
    rw [hmap]
    exact storeWF_seq nA
  · have hmap : (initialMockState nR nA nE fR fA fE).expenditures.map (·.id) =
        (List.range nE).map fun (i : Nat) => (i : Int) + 1 := by
      simp [initialMockState, List.map_map, Function.comp]
    rw [hmap]
    exact storeWF_seq nE

theorem applyMockOp_WF (s : MockState) (op : MockOp) (h : MockWF s) :
    MockWF (applyMockOp s op) := by
  obtain ⟨hr, ha, he⟩ := h
  cases op with
  | createReceipt b =>
    refine ⟨?_, ha, he⟩
    show storeWF ((s.receipts ++
      [{ b with id := s.receiptIdCounter }]).map fun r : Receipt => r.id) _
    rw [List.map_append]
    simpa using storeWF_append _ _ hr
  | updateReceipt b =>
    refine ⟨?_, ha, he⟩
    exact storeWF_update (fun r : Receipt => r.id) _ _ _ hr fun x _ => by
      by_cases hid : x.id = b.id <;> simp [hid]
  | deleteReceipt i =>
    exact ⟨storeWF_filter (fun r : Receipt => r.id) _ _ _ hr, ha, he⟩
  | createAllocation b =>
    refine ⟨hr, ?_, he⟩
    show storeWF ((s.allocations ++
      [{ b with id := s.allocationIdCounter }]).map
        fun a : Allocation => a.id) _
    rw [List.map_append]
    simpa using storeWF_append _ _ ha
  | updateAllocation b =>
    refine ⟨hr, ?_, he⟩
    exact storeWF_update (fun a : Allocation => a.id) _ _ _ ha fun x _ => by
      by_cases hid : x.id = b.id <;> simp [hid]
  | deleteAllocation i =>
    exact ⟨hr, storeWF_filter (fun a : Allocation => a.id) _ _ _ ha, he⟩
  | createExpenditure b =>
    refine ⟨hr, ha, ?_⟩
    show storeWF ((s.expenditures ++
      [{ b with id := s.expenditureIdCounter }]).map
        fun e : Expenditure => e.id) _
    rw [List.map_append]
    simpa using storeWF_append _ _ he
  | updateExpenditure b =>
    refine ⟨hr, ha, ?_⟩
    exact storeWF_update (fun e : Expenditure => e.id) _ _ _ he fun x _ => by
      by_cases hid : x.id = b.id <;> simp [hid]
  | deleteExpenditure i =>
    exact ⟨hr, ha, storeWF_filter (fun e : Expenditure => e.id) _ _ _ he⟩

theorem foldl_applyMockOp_WF :
    ∀ (ops : List MockOp) (s : MockState), MockWF s →
      MockWF (ops.foldl applyMockOp s) := by
  intro ops
  induction ops with
  | nil => intro s h; simpa
  | cons op ops ih =>
    intro s h
    rw [List.foldl_cons]
    exact ih _ (applyMockOp_WF s op h)

/-- C9: the generated mock data has ids 1..n with the counter at n+1, and
every sequence of create/update/delete requests preserves pairwise
distinctness of ids (create assigns the counter and increments it, so a
fresh id never collides with an existing one). -/
theorem mock_ids_distinct (nR nA nE : Nat) (fR : Nat → Receipt)
    (fA : Nat → Allocation) (fE : Nat → Expenditure) (ops : List MockOp) :
    MockWF (initialMockState nR nA nE fR fA fE) ∧
    MockWF (ops.foldl applyMockOp (initialMockState nR nA nE fR fA fE)) :=
  ⟨initialMockState_WF nR nA nE fR fA fE,
   foldl_applyMockOp_WF ops _ (initialMockState_WF nR nA nE fR fA fE)⟩

/-- C9 witness: two generated receipts, then a create and a delete. -/
theorem mock_ids_distinct_witness :
    MockWF (initialMockState 2 1 1
      (fun _ => ⟨0, ⟨2023, 5, 100, 0⟩, "S", "Equipment", 1, ""⟩)
      (fun _ => ⟨0, ⟨2023, 6, 120, 0⟩, "A-1", []⟩)
      (fun _ => ⟨0, ⟨2023, 7, 140, 0⟩, "B", "V", "Equipment", "Lab",
        "CSE", 1, ""⟩)) ∧
    MockWF ([MockOp.createReceipt
        ⟨0, ⟨2024, 1, 200, 0⟩, "S2", "Salary", 2, ""⟩,
      MockOp.deleteReceipt 1].foldl applyMockOp
      (initialMockState 2 1 1
        (fun _ => ⟨0, ⟨2023, 5, 100, 0⟩, "S", "Equipment", 1, ""⟩)
        (fun _ => ⟨0, ⟨2023, 6, 120, 0⟩, "A-1", []⟩)
        (fun _ => ⟨0, ⟨2023, 7, 140, 0⟩, "B", "V", "Equipment", "Lab",
          "CSE", 1, ""⟩))) :=
  mock_ids_distinct 2 1 1 _ _ _ _

/-- C8: `apiFetch` redirects to the ERP login and throws exactly on
status 401, returns every other response unchanged with no redirect, and
the fetch-and-store callers keep their arrays when the response is not
ok. -/
theorem apiFetch_spec (res : ApiResponse) : ApiFetchSpec res := by
  refine ⟨?_, ?_, ?_⟩
  · intro h
    simp [apiFetch, h]
  · intro h
    simp [apiFetch, h]
  · intro h
    exact ⟨fun body cur => by simp [fetchReceiptsApply, h],
           fun body cur => by simp [fetchExpendituresApply, h],
           fun body cur => by simp [fetchAllocationsApply, h]⟩

/-- C8 witness: a 401 response and a non-ok 500 response. -/
theorem apiFetch_witness :
    ApiFetchSpec ⟨401, false⟩ ∧ ApiFetchSpec ⟨500, false⟩ :=
  ⟨apiFetch_spec _, apiFetch_spec _⟩

/-! ### Flat round-trip theorems -/

theorem amountKey_inj (s t : String)
    (h : "amount_" ++ s = "amount_" ++ t) : s = t := by
  have hd := congrArg String.data h
  simp only [String.data_append] at hd
  exact String.ext (List.append_cancel_left hd)

theorem lookup_mapped :
    ∀ (l : List AllocationCategoryAmount),
      (l.map fun x => x.category).Nodup →
      ∀ ca ∈ l,
        ∃ q, (((l.map fun x =>
            ("amount_" ++ x.category, x.allocatedAmount)).reverse).find?
          fun p => p.1 == ("amount_" ++ ca.category)) = some q ∧
          q.2 = ca.allocatedAmount := by
  intro l
  induction l with
  | nil =>
    intro _ ca hca
    simp at hca
  | cons x rest ih =>
    intro hnd ca hca
    have hnd2 : x.category ∉ (rest.map fun y => y.category) ∧
        (rest.map fun y => y.category).Nodup := by
      rw [List.map_cons, List.nodup_cons] at hnd
      exact hnd
    rw [List.map_cons, List.reverse_cons, List.find?_append]
    rcases List.mem_cons.mp hca with rfl | hcar
    · have hnone : (((rest.map fun y =>
          ("amount_" ++ y.category, y.allocatedAmount)).reverse).find?
            fun p => p.1 == ("amount_" ++ ca.category)) = none := by
        rw [List.find?_eq_none]
        intro p hp
        rw [List.mem_reverse] at hp
        obtain ⟨y, hy, rfl⟩ := List.mem_map.mp hp
        simp only [beq_iff_eq]
        intro heq
        exact hnd2.1 (amountKey_inj _ _ heq ▸
          List.mem_map.mpr ⟨y, hy, rfl⟩)
      rw [hnone]
      refine ⟨("amount_" ++ ca.category, ca.allocatedAmount), ?_, rfl⟩
      simp
    · obtain ⟨q, hq, hq2⟩ := ih hnd2.2 ca hcar
      rw [hq]
      exact ⟨q, by simp, hq2⟩

/-- C10: for an allocation whose `categoryAmounts` list has exactly one
entry per canonical category, in order, flattening to the dynamic
`amount_${category}` representation and re-reading it reproduces the
date, allocation number and category amounts exactly. -/
theorem flat_round_trip (cats : List String) (idx : Int) (a : Allocation)
    (hnd : cats.Nodup)
    (hshape : a.categoryAmounts.map (·.category) = cats) :
    flatToAllocation cats (allocationToFlat idx a) =
      ⟨a.date, a.allocationNumber, a.categoryAmounts⟩ := by
  subst hshape
  show AllocationData.mk a.date a.allocationNumber _ = _
  simp only [AllocationData.mk.injEq, true_and]
  rw [List.map_map]
  have hpt : ∀ ca ∈ a.categoryAmounts,
      ((fun c => AllocationCategoryAmount.mk c
          ((flatLookup (allocationToFlat idx a) ("amount_" ++ c)).getD 0)) ∘
        (fun ca : AllocationCategoryAmount => ca.category)) ca = id ca := by
    intro ca hca
    obtain ⟨q, hq, hq2⟩ := lookup_mapped a.categoryAmounts hnd ca hca
    have hl : flatLookup (allocationToFlat idx a)
        ("amount_" ++ ca.category) = some ca.allocatedAmount := by
      rw [show flatLookup (allocationToFlat idx a)
          ("amount_" ++ ca.category) =
        ((((a.categoryAmounts.map fun x =>
            ("amount_" ++ x.category, x.allocatedAmount)).reverse).find?
          fun p => p.1 == ("amount_" ++ ca.category)).map (·.2)) from rfl]
      rw [hq]
      simp [hq2]
    show AllocationCategoryAmount.mk ca.category
        ((flatLookup (allocationToFlat idx a)
          ("amount_" ++ ca.category)).getD 0) = ca
    rw [hl]
    simp
  exact (List.map_congr_left hpt).trans (List.map_id _)

/-- C10 witness: a two-category allocation survives the round trip. -/
theorem flat_round_trip_witness :
    (["Equipment", "Salary"] : List String).Nodup ∧
    ((⟨5, ⟨2023, 9, 140, 0⟩, "A-1",
        [⟨"Equipment", 100⟩, ⟨"Salary", 70⟩]⟩ :
      Allocation).categoryAmounts.map (·.category) =
        ["Equipment", "Salary"]) ∧
    flatToAllocation ["Equipment", "Salary"]
      (allocationToFlat 0
        ⟨5, ⟨2023, 9, 140, 0⟩, "A-1",
          [⟨"Equipment", 100⟩, ⟨"Salary", 70⟩]⟩) =
      ⟨⟨2023, 9, 140, 0⟩, "A-1", [⟨"Equipment", 100⟩, ⟨"Salary", 70⟩]⟩ :=
  ⟨by decide, by decide,
   flat_round_trip ["Equipment", "Salary"] 0 _ (by decide) (by decide)⟩

end Dashboard
